import Mathlib

/-!
Verification of the capacitor-secure-storage engine.

The embedding follows the repository's two native implementations:
  * `SecureStorage` (Android, `SecureStoragePlugin.java`): AES/GCM/NoPadding
    with a 12-byte IV and a 128-bit tag, the blob `IV ++ ciphertext` stored
    Base64-encoded in `SharedPreferences`; all crypto exceptions are caught
    and logged inside `set`/`get`.
  * `SecureStoragePlugin` (Android bridging layer): argument validation and
    resolve/reject of the Capacitor call.
  * `SecureStorage` (iOS, `SecureStorage.swift`): Keychain items keyed by
    account name, `set` implemented as delete-then-add.

External collaborators (the `javax.crypto` AES-GCM cipher, `android.util.Base64`,
`SharedPreferences`, the iOS Keychain) are modelled as executable idealized
components that keep the structure the repository code relies on: the cipher is
a keystream XOR with an appended 16-byte authentication tag, the Base64 codec is
an injective string-safe byte encoding with a total decoder, and both stores are
association lists.
-/

/-- The bytes of a string, modelling Java `String.getBytes()`: an injective
byte-sequence image of the string. -/
def strBytes (s : String) : List Nat :=
  s.data.map Char.toNat

/-- A string rebuilt from bytes, modelling Java `new String(bytes)`:
the left inverse of `strBytes`. -/
def strOfBytes (bs : List Nat) : String :=
  ⟨bs.map Char.ofNat⟩

/-- `GCM_IV_LENGTH` from `SecureStorage.java`: 12 bytes. -/
def GCM_IV_LENGTH : Nat := 12

/-- The AES-GCM authentication-tag size in bytes (`GCM_TAG_LENGTH = 128` bits
in `SecureStorage.java`). -/
def GCM_TAG_BYTES : Nat := 16

/-- Models the keystream of the external AES-GCM cipher (`javax.crypto`):
a deterministic byte stream derived from the key and the IV. -/
def keystream (key : Nat) (iv : List Nat) (i : Nat) : Nat :=
  (key + 131 * iv.sum + 31 * i + 7) % 256

/-- CTR-style keystream XOR, the core of the modelled AES-GCM cipher:
byte `i` of the plaintext is XORed with keystream position `i`.
XOR makes encryption and decryption the same involutive operation,
exactly as in the real counter mode. -/
def ctrXor (key : Nat) (iv : List Nat) : Nat → List Nat → List Nat
  | _, [] => []
  | i, b :: bs => (b ^^^ keystream key iv i) :: ctrXor key iv (i + 1) bs

/-- Models the GCM authentication tag: 16 bytes, a deterministic function of
the key, the IV and the ciphertext, so any change to either is detected. -/
def gcmTag (key : Nat) (iv ct : List Nat) : List Nat :=
  (List.range GCM_TAG_BYTES).map
    (fun i => (key + 31 * iv.sum + 131 * ct.sum + 7 * ct.length + i) % 256)

/-- The error cases of the external crypto layer observed by the repository
code: `badTag` models `AEADBadTagException`/`BadPaddingException` (tag
mismatch), `shortBuffer` models the exception thrown when the input to GCM
decryption is shorter than the tag, `keyUnavailable` models
`KeyStoreException`/`UnrecoverableEntryException` and friends. -/
inductive CryptoError
  | badTag
  | shortBuffer
  | keyUnavailable
deriving DecidableEq, Repr

/-- Models `cipher.doFinal` in ENCRYPT_MODE for AES/GCM/NoPadding: the
ciphertext (same length as the plaintext) with the 16-byte tag appended,
as the Java GCM implementation returns it. -/
def gcmEncryptBytes (key : Nat) (iv pt : List Nat) : List Nat :=
  ctrXor key iv 0 pt ++ gcmTag key iv (ctrXor key iv 0 pt)

/-- Models `cipher.doFinal` in DECRYPT_MODE for AES/GCM/NoPadding: fails if
the input is shorter than the tag, verifies the tag over the ciphertext
part, and only then returns the decrypted plaintext. -/
def gcmDecryptBytes (key : Nat) (iv data : List Nat) : Except CryptoError (List Nat) :=
  if data.length < GCM_TAG_BYTES then
    Except.error CryptoError.shortBuffer
  else
    if data.drop (data.length - GCM_TAG_BYTES)
        = gcmTag key iv (data.take (data.length - GCM_TAG_BYTES)) then
      Except.ok (ctrXor key iv 0 (data.take (data.length - GCM_TAG_BYTES)))
    else
      Except.error CryptoError.badTag

/-- Models the encoding of one byte in the string-safe codec standing in for
`android.util.Base64`: a run of marker characters terminated by a separator,
injective on arbitrary byte values. -/
def b64EncodeByte (b : Nat) : List Char :=
  List.replicate b 'A' ++ [',']

/-- Models `Base64.encodeToString(bytes, Base64.DEFAULT)` (external library):
an injective encoding of a byte sequence into a storable string. -/
def b64Encode (bs : List Nat) : String :=
  ⟨(bs.map b64EncodeByte).flatten⟩

/-- Decoder worker for the modelled Base64: counts marker characters and
emits a byte at each separator. -/
def b64DecodeAux : List Char → Nat → List Nat
  | [], _ => []
  | c :: cs, acc => if c = ',' then acc :: b64DecodeAux cs 0 else b64DecodeAux cs (acc + 1)

/-- Models `Base64.decode(s, Base64.DEFAULT)` (external library): the left
inverse of `b64Encode`. -/
def b64Decode (s : String) : List Nat :=
  b64DecodeAux s.data 0

/-- The `SharedPreferences` string map (external collaborator), as an
association list from keys to stored strings; operations below keep the
map semantics of the real store. -/
abbrev Store := List (String × String)

/-- Models `sharedPreferences.edit().putString(key, value).apply()`:
replaces any existing entry for `key`. -/
def spPut (store : Store) (k v : String) : Store :=
  (k, v) :: store.filter (fun p => p.1 != k)

/-- Models `sharedPreferences.getString(key, null)`. -/
def spGetStr (store : Store) (k : String) : Option String :=
  (store.find? (fun p => p.1 == k)).map Prod.snd

/-- Models `sharedPreferences.edit().remove(key).apply()`. -/
def spRemove (store : Store) (k : String) : Store :=
  store.filter (fun p => p.1 != k)

/-- Models `sharedPreferences.edit().clear().apply()`. -/
def spClear (_ : Store) : Store := []

/-- Models `sharedPreferences.getAll().keySet()`. -/
def spKeys (store : Store) : List String :=
  store.map Prod.fst

/-- The per-call environment of the external crypto collaborators in
`SecureStorage.java`: the master key held by the Android KeyStore, the
random IV produced by `cipher.getIV()` for this call, and whether the
KeyStore/cipher calls throw one of the checked exceptions the code catches. -/
structure CryptoEnv where
  masterKey : Nat
  iv : List Nat
  throws : Bool
deriving Repr

namespace SecureStorage

/-- The Base64 blob that `SecureStorage.set` stores for a value: the
12-byte IV copied in front of the encrypted bytes, then Base64-encoded
(`combined = iv ++ encryptedBytes`). -/
def setBlob (env : CryptoEnv) (v : String) : String :=
  b64Encode (env.iv ++ gcmEncryptBytes env.masterKey env.iv (strBytes v))

/-- Models `SecureStorage.set(key, value)` (Android). A `none` value takes
the early `remove` branch before any crypto call. Otherwise the value is
encrypted and stored; if the KeyStore or cipher throws, the catch block
logs and returns with the store untouched. -/
def set (env : CryptoEnv) (store : Store) (key : String) (value : Option String) : Store :=
  match value with
  | none => spRemove store key
  | some v => if env.throws then store else spPut store key (setBlob env v)

/-- The body of the `try` block of `SecureStorage.get(key)` (Android):
absent key yields `ok none`; a decoded blob shorter than `GCM_IV_LENGTH`
yields `ok none`; otherwise the blob is split into IV and encrypted bytes
and decrypted, any thrown exception becoming an `error`. -/
def getTry (env : CryptoEnv) (store : Store) (key : String) :
    Except CryptoError (Option String) :=
  match spGetStr store key with
  | none => Except.ok none
  | some encryptedValue =>
    let combined := b64Decode encryptedValue
    if combined.length < GCM_IV_LENGTH then
      Except.ok none
    else if env.throws then
      Except.error CryptoError.keyUnavailable
    else
      (gcmDecryptBytes env.masterKey (combined.take GCM_IV_LENGTH)
        (combined.drop GCM_IV_LENGTH)).map (fun pt => some (strOfBytes pt))

/-- Models `SecureStorage.get(key)` (Android) as observed by its caller:
the catch block turns every thrown exception into a logged `null`. -/
def get (env : CryptoEnv) (store : Store) (key : String) : Option String :=
  match getTry env store key with
  | Except.ok v => v
  | Except.error _ => none

/-- Models `SecureStorage.remove(key)` (Android). -/
def remove (store : Store) (key : String) : Store :=
  spRemove store key

/-- Models `SecureStorage.clear()` (Android). -/
def clear (store : Store) : Store :=
  spClear store

/-- Models `SecureStorage.keys()` (Android). -/
def keys (store : Store) : List String :=
  spKeys store

end SecureStorage

/-- The outcome of a Capacitor `PluginCall`: `call.resolve()` or
`call.reject(msg)`. -/
inductive CallResult
  | resolved
  | rejected (msg : String)
deriving DecidableEq, Repr

namespace SecureStoragePlugin

/-- Models `SecureStoragePlugin.set` (Android bridging layer): missing
arguments are rejected; otherwise `implementation.set` runs — it never
throws (its own catch swallows crypto failures), so the call resolves. -/
def set (env : CryptoEnv) (store : Store) (key value : Option String) :
    CallResult × Store :=
  match key with
  | none => (CallResult.rejected "Key string must be provided", store)
  | some k =>
    match value with
    | none => (CallResult.rejected "Value string must be provided", store)
    | some v => (CallResult.resolved, SecureStorage.set env store k (some v))

end SecureStoragePlugin

/-- The iOS Keychain slice owned by the plugin's service identifier
(external collaborator), as an association list from account names
(storage keys) to item data. -/
abbrev KStore := List (String × String)

/-- `errSecSuccess` from the Security framework. -/
def errSecSuccess : Int := 0

/-- `errSecItemNotFound` from the Security framework. -/
def errSecItemNotFound : Int := -25300

namespace IosSecureStorage

/-- Models `SecureStorage.set` (iOS): `SecItemDelete` for the key first,
then `SecItemAdd`; `addOk` is the status of the add call. When the add
fails the delete has already happened. -/
def set (addOk : Bool) (store : KStore) (key value : String) : Bool × KStore :=
  let afterDelete := store.filter (fun p => p.1 != key)
  if addOk then (true, (key, value) :: afterDelete) else (false, afterDelete)

/-- Models `SecureStorage.get` (iOS): `SecItemCopyMatching` for the key. -/
def get (store : KStore) (key : String) : Option String :=
  (store.find? (fun p => p.1 == key)).map Prod.snd

/-- Models `SecureStorage.remove` (iOS): `SecItemDelete`, reporting success
both when the item was deleted and when it was not found. -/
def remove (store : KStore) (key : String) : Bool × KStore :=
  let status : Int := if store.any (fun p => p.1 == key) then errSecSuccess else errSecItemNotFound
  (status == errSecSuccess || status == errSecItemNotFound,
    store.filter (fun p => p.1 != key))

end IosSecureStorage

theorem ctrXor_length (key : Nat) (iv : List Nat) (i : Nat) (bs : List Nat) :
    (ctrXor key iv i bs).length = bs.length := by
  induction bs generalizing i with
  | nil => simp [ctrXor]
  | cons b bs ih => simp [ctrXor, ih]

theorem ctrXor_ctrXor (key : Nat) (iv : List Nat) (i : Nat) (bs : List Nat) :
    ctrXor key iv i (ctrXor key iv i bs) = bs := by
  induction bs generalizing i with
  | nil => simp [ctrXor]
  | cons b bs ih =>
    simp [ctrXor, ih, Nat.xor_assoc]

theorem gcmTag_length (key : Nat) (iv ct : List Nat) :
    (gcmTag key iv ct).length = GCM_TAG_BYTES := by
  simp [gcmTag]

theorem gcmDecrypt_gcmEncrypt (key : Nat) (iv pt : List Nat) :
    gcmDecryptBytes key iv (gcmEncryptBytes key iv pt) = Except.ok pt := by
  unfold gcmEncryptBytes gcmDecryptBytes
  have h1 : (ctrXor key iv 0 pt ++ gcmTag key iv (ctrXor key iv 0 pt)).length
      = (ctrXor key iv 0 pt).length + GCM_TAG_BYTES := by
    simp [gcmTag_length]
  rw [h1, Nat.add_sub_cancel]
  rw [if_neg (by simp [GCM_TAG_BYTES])]
  rw [List.take_left, List.drop_left]
  rw [if_pos rfl, ctrXor_ctrXor]

theorem b64DecodeAux_replicate (b : Nat) (rest : List Char) (acc : Nat) :
    b64DecodeAux (List.replicate b 'A' ++ (',' :: rest)) acc
      = (acc + b) :: b64DecodeAux rest 0 := by
  induction b generalizing acc with
  | zero =>
    simp [List.replicate, b64DecodeAux]
  | succ n ih =>
    rw [List.replicate_succ, List.cons_append]
    simp only [b64DecodeAux]
    rw [if_neg (by decide)]
    rw [ih]
    have h2 : acc + 1 + n = acc + (n + 1) := by omega
    rw [h2]

theorem b64Decode_b64Encode (bs : List Nat) : b64Decode (b64Encode bs) = bs := by
  show b64DecodeAux ((bs.map b64EncodeByte).flatten) 0 = bs
  induction bs with
  | nil => simp [b64DecodeAux]
  | cons b bs ih =>
    simp only [List.map_cons, List.flatten_cons]
    rw [show b64EncodeByte b = List.replicate b 'A' ++ [','] from rfl]
    rw [List.append_assoc, List.singleton_append]
    rw [b64DecodeAux_replicate]
    simp [ih]

theorem b64Encode_inj {a b : List Nat} (h : b64Encode a = b64Encode b) : a = b := by
  have ha := b64Decode_b64Encode a
  have hb := b64Decode_b64Encode b
  rw [← ha, ← hb, h]

theorem strOfBytes_strBytes (s : String) : strOfBytes (strBytes s) = s := by
  cases s with
  | mk l =>
    simp [strOfBytes, strBytes, List.map_map, Function.comp_def, Char.ofNat_toNat]

theorem spGetStr_spPut_self (store : Store) (k v : String) :
    spGetStr (spPut store k v) k = some v := by
  simp [spGetStr, spPut, List.find?_cons]

theorem find?_filter_self (store : Store) (k : String) :
    List.find? (fun p => p.1 == k) (store.filter (fun p => p.1 != k)) = none := by
  rw [List.find?_eq_none]
  intro x hx
  have hmem := List.of_mem_filter hx
  simp only [bne_iff_ne, ne_eq] at hmem
  simp [hmem]

theorem spGetStr_spRemove_self (store : Store) (k : String) :
    spGetStr (spRemove store k) k = none := by
  simp [spGetStr, spRemove, find?_filter_self]

theorem find?_filter_ne (store : Store) (k k2 : String) (h : k2 ≠ k) :
    List.find? (fun p => p.1 == k2) (store.filter (fun p => p.1 != k))
      = List.find? (fun p => p.1 == k2) store := by
  induction store with
  | nil => rfl
  | cons a as ih =>
    by_cases ha : a.1 = k
    · have hne : (a.1 == k2) = false := by
        simp [ha]
        exact fun hk => h hk.symm
      have hk2 : (k == k2) = false := by
        simp
        exact fun hk => h hk.symm
      simp [List.filter_cons, ha, List.find?_cons, hne, hk2, ih]
    · by_cases ha2 : a.1 = k2
      · simp [List.filter_cons, ha, List.find?_cons, ha2, h]
      · simp [List.filter_cons, ha, List.find?_cons, ha2, h, ih]

theorem spGetStr_spPut_ne (store : Store) (k k2 v : String) (h : k2 ≠ k) :
    spGetStr (spPut store k v) k2 = spGetStr store k2 := by
  have hk : (k == k2) = false := by
    simp
    exact fun hk => h hk.symm
  simp [spGetStr, spPut, List.find?_cons, hk, find?_filter_ne store k k2 h]

theorem spGetStr_spRemove_ne (store : Store) (k k2 : String) (h : k2 ≠ k) :
    spGetStr (spRemove store k) k2 = spGetStr store k2 := by
  simp [spGetStr, spRemove, find?_filter_ne store k k2 h]

theorem spRemove_of_absent (store : Store) (k : String) (h : spGetStr store k = none) :
    spRemove store k = store := by
  unfold spRemove
  rw [List.filter_eq_self]
  intro a ha
  have hfind : List.find? (fun p => p.1 == k) store = none := by
    unfold spGetStr at h
    cases hf : List.find? (fun p => p.1 == k) store with
    | none => rfl
    | some x => rw [hf] at h; simp at h
  rw [List.find?_eq_none] at hfind
  have := hfind a ha
  simpa using this

theorem spRemove_spRemove (store : Store) (k : String) :
    spRemove (spRemove store k) k = spRemove store k := by
  simp [spRemove, List.filter_filter]

theorem getTry_eq_of_present (env : CryptoEnv) (store : Store) (key blob : String)
    (h : spGetStr store key = some blob) :
    SecureStorage.getTry env store key =
      (if (b64Decode blob).length < GCM_IV_LENGTH then Except.ok none
       else if env.throws then Except.error CryptoError.keyUnavailable
       else (gcmDecryptBytes env.masterKey ((b64Decode blob).take GCM_IV_LENGTH)
         ((b64Decode blob).drop GCM_IV_LENGTH)).map (fun pt => some (strOfBytes pt))) := by
  unfold SecureStorage.getTry
  rw [h]

theorem getTry_eq_of_absent (env : CryptoEnv) (store : Store) (key : String)
    (h : spGetStr store key = none) :
    SecureStorage.getTry env store key = Except.ok none := by
  unfold SecureStorage.getTry
  rw [h]

theorem take_iv (iv rest : List Nat) (h : iv.length = GCM_IV_LENGTH) :
    (iv ++ rest).take GCM_IV_LENGTH = iv := by
  rw [← h]
  exact List.take_left iv rest

theorem drop_iv (iv rest : List Nat) (h : iv.length = GCM_IV_LENGTH) :
    (iv ++ rest).drop GCM_IV_LENGTH = rest := by
  rw [← h]
  exact List.drop_left iv rest

/-- C1: for every key `k` and every string value `v` (including the empty
string), a `set(k, v)` performed in a normal environment (no KeyStore/cipher
exception, 12-byte IV from `cipher.getIV()`) followed by `get(k)` returns
exactly `v`: the value survives encryption, Base64 encoding, storage,
parsing and decryption unchanged. -/
theorem c1_set_get_round_trip (env : CryptoEnv) (store : Store) (k v : String)
    (hok : env.throws = false) (hiv : env.iv.length = GCM_IV_LENGTH) :
    SecureStorage.get env (SecureStorage.set env store k (some v)) k = some v := by
  have hset : SecureStorage.set env store k (some v)
      = spPut store k (SecureStorage.setBlob env v) := by
    simp [SecureStorage.set, hok]
  have htry : SecureStorage.getTry env (spPut store k (SecureStorage.setBlob env v)) k
      = Except.ok (some v) := by
    rw [getTry_eq_of_present env _ k (SecureStorage.setBlob env v)
      (spGetStr_spPut_self store k (SecureStorage.setBlob env v))]
    rw [show b64Decode (SecureStorage.setBlob env v)
        = env.iv ++ gcmEncryptBytes env.masterKey env.iv (strBytes v) from
      b64Decode_b64Encode _]
    rw [if_neg (by rw [List.length_append, hiv]; omega)]
    rw [hok, if_neg (by simp)]
    rw [take_iv _ _ hiv, drop_iv _ _ hiv]
    rw [gcmDecrypt_gcmEncrypt]
    simp [Except.map, strOfBytes_strBytes]
  unfold SecureStorage.get
  rw [hset, htry]

/-- Witness for C1 at a concrete input, with the empty string as the value. -/
theorem c1_witness :
    (⟨0, List.replicate 12 0, false⟩ : CryptoEnv).throws = false ∧
    (⟨0, List.replicate 12 0, false⟩ : CryptoEnv).iv.length = GCM_IV_LENGTH ∧
    SecureStorage.get ⟨0, List.replicate 12 0, false⟩
      (SecureStorage.set ⟨0, List.replicate 12 0, false⟩ [] "a" (some "")) "a" = some "" :=
  ⟨rfl, by decide, c1_set_get_round_trip ⟨0, List.replicate 12 0, false⟩ [] "a" "" rfl (by decide)⟩

/-- C2 fails on the code: the store below holds a present but corrupted blob
under "k" (28 zero bytes, whose tag does not verify). The catch block of
`SecureStorage.get` turns the authentication failure into `null`, the same
observable outcome as absence, instead of the error the claim requires. -/
theorem c2_counterexample :
    spGetStr [("k", b64Encode (List.replicate 28 0))] "k"
      = some (b64Encode (List.replicate 28 0)) ∧
    SecureStorage.getTry ⟨0, [], false⟩ [("k", b64Encode (List.replicate 28 0))] "k"
      = Except.error CryptoError.badTag ∧
    SecureStorage.get ⟨0, [], false⟩ [("k", b64Encode (List.replicate 28 0))] "k" = none := by
  refine ⟨by decide, by rfl, by decide⟩

/-- C2 (amended): `get` on a never-set key returns `null` with no error;
`get` on a blob whose authentication fails also returns `null` to its
caller — the decrypt error occurs internally (in the `try` body) but the
catch block swallows it, so absence and corruption yield the same
observable outcome of `get`. -/
theorem c2_absence_and_corruption (env : CryptoEnv) (store : Store) (k : String) :
    (spGetStr store k = none →
      SecureStorage.getTry env store k = Except.ok none ∧
      SecureStorage.get env store k = none) ∧
    (∀ e, SecureStorage.getTry env store k = Except.error e →
      SecureStorage.get env store k = none) := by
  constructor
  · intro habs
    have ht := getTry_eq_of_absent env store k habs
    refine ⟨ht, ?_⟩
    unfold SecureStorage.get
    rw [ht]
  · intro e he
    unfold SecureStorage.get
    rw [he]

/-- Witness for C2 (amended) at a concrete input: a never-set key. -/
theorem c2_witness :
    SecureStorage.get ⟨0, [], false⟩ [] "missing" = none :=
  ((c2_absence_and_corruption ⟨0, [], false⟩ [] "missing").1 rfl).2

/-- C3 fails on the code: in an environment where the KeyStore/cipher throws
(modelled by `throws = true`), `SecureStorage.set` catches and logs the
exception and returns normally, so the bridging layer resolves the call as
success with the store unchanged — no error reaches the caller. -/
theorem c3_counterexample :
    (⟨0, List.replicate 12 0, true⟩ : CryptoEnv).throws = true ∧
    SecureStoragePlugin.set ⟨0, List.replicate 12 0, true⟩ [("other", "blob")]
      (some "k") (some "v") = (CallResult.resolved, [("other", "blob")]) :=
  ⟨rfl, rfl⟩

/-- C3 (amended): the bridging layer reports missing-argument failures as
errors, and no failure aborts the process (every operation is total); but a
`set` whose encryption step fails does not report an error — the exception
is caught and logged inside the engine and the call resolves as success,
leaving the store unchanged. -/
theorem c3_error_reporting (env : CryptoEnv) (store : Store) (k v : String) :
    (SecureStoragePlugin.set env store (some k) (some v)).1 = CallResult.resolved ∧
    (env.throws = true → (SecureStoragePlugin.set env store (some k) (some v)).2 = store) ∧
    (SecureStoragePlugin.set env store none (some v)).1
      = CallResult.rejected "Key string must be provided" ∧
    (SecureStoragePlugin.set env store (some k) none).1
      = CallResult.rejected "Value string must be provided" := by
  refine ⟨rfl, ?_, rfl, rfl⟩
  intro ht
  simp [SecureStoragePlugin.set, SecureStorage.set, ht]

/-- Witness for C3 (amended) at a concrete input with a throwing cipher. -/
theorem c3_witness :
    (SecureStoragePlugin.set ⟨0, [], true⟩ [("x", "y")] (some "k") (some "v")).2
      = [("x", "y")] :=
  (c3_error_reporting ⟨0, [], true⟩ [("x", "y")] "k" "v").2.1 rfl

/-- C4 fails on the code: the stored blob below decodes to 5 bytes, shorter
than `nonce_length + tag_length` (12 + 16 = 28). `SecureStorage.get` compares
only against `GCM_IV_LENGTH` (12) and returns `null` — an `ok none` outcome
with no error anywhere, not a `MalformedRecord` error. -/
theorem c4_counterexample :
    (b64Decode (b64Encode (List.replicate 5 0))).length < GCM_IV_LENGTH + GCM_TAG_BYTES ∧
    spGetStr [("k", b64Encode (List.replicate 5 0))] "k"
      = some (b64Encode (List.replicate 5 0)) ∧
    SecureStorage.getTry ⟨0, [], false⟩ [("k", b64Encode (List.replicate 5 0))] "k"
      = Except.ok none ∧
    SecureStorage.get ⟨0, [], false⟩ [("k", b64Encode (List.replicate 5 0))] "k" = none :=
  ⟨by decide, by decide, by rfl, by decide⟩

/-- C4 (amended): a stored blob decoding to fewer than `GCM_IV_LENGTH` (12)
bytes makes `get` return `null` immediately with no error at all; a blob of
12 to 27 decoded bytes passes the length check but its encrypted part is
shorter than the 16-byte tag, so decryption throws and the catch block again
returns `null`. No `MalformedRecord`-style error is surfaced to the caller
and no case crashes: both short-blob shapes end in a `null` result. -/
theorem c4_short_blob (env : CryptoEnv) (store : Store) (k blob : String)
    (hp : spGetStr store k = some blob) (hok : env.throws = false) :
    ((b64Decode blob).length < GCM_IV_LENGTH →
      SecureStorage.getTry env store k = Except.ok none ∧
      SecureStorage.get env store k = none) ∧
    (GCM_IV_LENGTH ≤ (b64Decode blob).length →
      (b64Decode blob).length < GCM_IV_LENGTH + GCM_TAG_BYTES →
      SecureStorage.getTry env store k = Except.error CryptoError.shortBuffer ∧
      SecureStorage.get env store k = none) := by
  constructor
  · intro hshort
    have ht : SecureStorage.getTry env store k = Except.ok none := by
      rw [getTry_eq_of_present env store k blob hp]
      rw [if_pos hshort]
    refine ⟨ht, ?_⟩
    unfold SecureStorage.get
    rw [ht]
  · intro hge hlt
    have ht : SecureStorage.getTry env store k = Except.error CryptoError.shortBuffer := by
      rw [getTry_eq_of_present env store k blob hp]
      rw [if_neg (by omega)]
      rw [hok, if_neg (by simp)]
      unfold gcmDecryptBytes
      rw [if_pos (by rw [List.length_drop]; omega)]
      rfl
    refine ⟨ht, ?_⟩
    unfold SecureStorage.get
    rw [ht]

/-- Witness for C4 (amended) at a concrete input: a 5-byte blob. -/
theorem c4_witness :
    SecureStorage.getTry ⟨0, [], false⟩ [("q", b64Encode (List.replicate 5 0))] "q"
      = Except.ok none :=
  ((c4_short_blob ⟨0, [], false⟩ [("q", b64Encode (List.replicate 5 0))] "q"
    (b64Encode (List.replicate 5 0)) (by decide) rfl).1 (by decide)).1

/-- C5: at the engine level, `set(k, none)` takes the early-return branch
that calls `remove(k)` before any crypto work: the resulting store is
exactly the one `remove(k)` produces (so nothing is encrypted or written
and all other entries are unchanged), and the entry for `k` is gone. -/
theorem c5_set_null_is_remove (env : CryptoEnv) (store : Store) (k : String) :
    SecureStorage.set env store k none = SecureStorage.remove store k ∧
    spGetStr (SecureStorage.set env store k none) k = none :=
  ⟨rfl, spGetStr_spRemove_self store k⟩

/-- C6 fails on the code: the iOS `set` deletes the existing Keychain item
before `SecItemAdd`. In the concrete run below the add step fails on a store
holding ("k", "old"): `set` reports failure, yet the original record is
gone and `get` finds nothing — an observable state with the old Record
removed and the new one absent. -/
theorem c6_counterexample :
    IosSecureStorage.set false [("k", "old")] "k" "new" = (false, []) ∧
    IosSecureStorage.get (IosSecureStorage.set false [("k", "old")] "k" "new").2 "k"
      = none :=
  ⟨by decide, by decide⟩

/-- C6 (amended): on Android, `set(k, v)` is atomic — when the KeyStore or
cipher throws, the store is completely unchanged, and otherwise the Record
for `k` is fully replaced by the new blob (IV, ciphertext and tag written
together in one `putString`). On iOS, `set` is delete-then-add: a successful
add fully replaces the record, but a failed add leaves the key absent, the
original record having already been deleted. -/
theorem c6_set_atomicity (env : CryptoEnv) (store : Store) (k v : String)
    (kst : KStore) (w : String) :
    (env.throws = true → SecureStorage.set env store k (some v) = store) ∧
    (env.throws = false →
      spGetStr (SecureStorage.set env store k (some v)) k
        = some (SecureStorage.setBlob env v)) ∧
    IosSecureStorage.get (IosSecureStorage.set true kst k w).2 k = some w ∧
    IosSecureStorage.get (IosSecureStorage.set false kst k w).2 k = none := by
  refine ⟨?_, ?_, ?_, ?_⟩
  · intro ht
    simp [SecureStorage.set, ht]
  · intro hf
    simp [SecureStorage.set, hf, spGetStr_spPut_self]
  · show spGetStr (spPut kst k w) k = some w
    exact spGetStr_spPut_self kst k w
  · show spGetStr (spRemove kst k) k = none
    exact spGetStr_spRemove_self kst k

/-- Witness for C6 (amended) at a concrete input with a throwing cipher. -/
theorem c6_witness :
    SecureStorage.set ⟨0, [], true⟩ [("a", "b")] "k" (some "v") = [("a", "b")] :=
  (c6_set_atomicity ⟨0, [], true⟩ [("a", "b")] "k" "v" [] "w").1 rfl

/-- C7: removing a key that was never set succeeds with no error (both
implementations are total) and leaves the store unchanged; removing twice
in a row equals removing once. On iOS the returned status is success both
for a deleted and for a not-found item. -/
theorem c7_remove_idempotent (store : Store) (kst : KStore) (k : String)
    (habs : spGetStr store k = none) (hiabs : IosSecureStorage.get kst k = none) :
    SecureStorage.remove store k = store ∧
    SecureStorage.remove (SecureStorage.remove store k) k = SecureStorage.remove store k ∧
    IosSecureStorage.remove kst k = (true, kst) := by
  refine ⟨spRemove_of_absent store k habs, spRemove_spRemove store k, ?_⟩
  have hfix : kst.filter (fun p => p.1 != k) = kst := by
    have h2 := spRemove_of_absent kst k hiabs
    unfold spRemove at h2
    exact h2
  have hfind : kst.find? (fun p => p.1 == k) = none := by
    cases hf : kst.find? (fun p => p.1 == k) with
    | none => rfl
    | some x =>
      unfold IosSecureStorage.get at hiabs
      rw [hf] at hiabs
      simp at hiabs
  have hany : kst.any (fun p => p.1 == k) = false := by
    rw [List.any_eq_false]
    rw [List.find?_eq_none] at hfind
    intro x hx
    simpa using hfind x hx
  simp [IosSecureStorage.remove, hany, hfix, errSecSuccess, errSecItemNotFound]

/-- Witness for C7 at a concrete input: an empty store on both platforms. -/
theorem c7_witness :
    SecureStorage.remove ([] : Store) "k" = [] ∧
    IosSecureStorage.remove ([] : KStore) "k" = (true, []) :=
  ⟨(c7_remove_idempotent [] [] "k" rfl rfl).1,
   (c7_remove_idempotent [] [] "k" rfl rfl).2.2⟩

/-- C8: starting from the empty store, after `set("a","1")` and
`set("b","2")` (both succeeding), `keys()` lists each stored key exactly
once and nothing else — the set {"a","b"} in some order; and `keys()` after
`clear()` is empty. -/
theorem c8_keys_after_sets_and_clear (env1 env2 : CryptoEnv) (store : Store)
    (h1 : env1.throws = false) (h2 : env2.throws = false) :
    (SecureStorage.keys (SecureStorage.set env2
        (SecureStorage.set env1 [] "a" (some "1")) "b" (some "2"))).Nodup ∧
    (∀ k, k ∈ SecureStorage.keys (SecureStorage.set env2
        (SecureStorage.set env1 [] "a" (some "1")) "b" (some "2")) ↔
      (k = "a" ∨ k = "b")) ∧
    SecureStorage.keys (SecureStorage.clear store) = [] := by
  have hab : (("a" : String) != "b") = true := by decide
  have hs : SecureStorage.set env2 (SecureStorage.set env1 [] "a" (some "1")) "b" (some "2")
      = [("b", SecureStorage.setBlob env2 "2"), ("a", SecureStorage.setBlob env1 "1")] := by
    simp [SecureStorage.set, h1, h2, spPut, List.filter_cons, hab]
  have hk : SecureStorage.keys (SecureStorage.set env2
      (SecureStorage.set env1 [] "a" (some "1")) "b" (some "2")) = ["b", "a"] := by
    rw [hs]
    rfl
  refine ⟨by rw [hk]; decide, ?_, rfl⟩
  intro k
  rw [hk]
  simp [List.mem_cons]
  tauto

/-- Witness for C8 at concrete environments. -/
theorem c8_witness :
    (SecureStorage.keys (SecureStorage.set ⟨0, [], false⟩
      (SecureStorage.set ⟨0, [], false⟩ [] "a" (some "1")) "b" (some "2"))).Nodup :=
  (c8_keys_after_sets_and_clear ⟨0, [], false⟩ ⟨0, [], false⟩ [] rfl rfl).1

/-- C9: two `set(k, v)` runs with the same key and value but distinct
12-byte IVs store different blobs: the IV is embedded as the prefix of the
serialized record, so distinct nonces force distinct stored strings. This
is the deterministic core of nonce-freshness — `cipher.getIV()` returns a
fresh random IV on every encryption. -/
theorem c9_distinct_nonce_distinct_blob (env1 env2 : CryptoEnv) (s1 s2 : Store)
    (k v : String)
    (h1 : env1.throws = false) (h2 : env2.throws = false)
    (hl1 : env1.iv.length = GCM_IV_LENGTH) (hl2 : env2.iv.length = GCM_IV_LENGTH)
    (hne : env1.iv ≠ env2.iv) :
    spGetStr (SecureStorage.set env1 s1 k (some v)) k
      ≠ spGetStr (SecureStorage.set env2 s2 k (some v)) k := by
  have e1 : spGetStr (SecureStorage.set env1 s1 k (some v)) k
      = some (SecureStorage.setBlob env1 v) := by
    simp [SecureStorage.set, h1, spGetStr_spPut_self]
  have e2 : spGetStr (SecureStorage.set env2 s2 k (some v)) k
      = some (SecureStorage.setBlob env2 v) := by
    simp [SecureStorage.set, h2, spGetStr_spPut_self]
  rw [e1, e2]
  intro hcontra
  apply hne
  have hb : SecureStorage.setBlob env1 v = SecureStorage.setBlob env2 v := by
    simpa using hcontra
  unfold SecureStorage.setBlob at hb
  have hcomb := b64Encode_inj hb
  have := congrArg (List.take GCM_IV_LENGTH) hcomb
  rw [take_iv _ _ hl1, take_iv _ _ hl2] at this
  exact this

/-- Witness for C9 at concrete distinct IVs. -/
theorem c9_witness :
    spGetStr (SecureStorage.set ⟨0, List.replicate 12 0, false⟩ [] "k" (some "x")) "k"
      ≠ spGetStr (SecureStorage.set ⟨0, 1 :: List.replicate 11 0, false⟩ [] "k" (some "x")) "k" :=
  c9_distinct_nonce_distinct_blob ⟨0, List.replicate 12 0, false⟩
    ⟨0, 1 :: List.replicate 11 0, false⟩ [] [] "k" "x"
    rfl rfl (by decide) (by decide) (by decide)

/-- C10: every operation touches only its own key. For distinct keys `k`
and `k2`, `set(k, v)` (in any environment, including the null-sentinel and
throwing cases) and `remove(k)` leave the blob stored under `k2` unchanged.
`get` and `keys` are read-only by construction: in the embedding, as in the
code, they are pure functions of the store and return no modified store. -/
theorem c10_frame (env : CryptoEnv) (store : Store) (k k2 : String)
    (v : Option String) (h : k2 ≠ k) :
    spGetStr (SecureStorage.set env store k v) k2 = spGetStr store k2 ∧
    spGetStr (SecureStorage.remove store k) k2 = spGetStr store k2 := by
  constructor
  · cases v with
    | none => exact spGetStr_spRemove_ne store k k2 h
    | some v =>
      by_cases ht : env.throws = true
      · simp [SecureStorage.set, ht]
      · have hset : SecureStorage.set env store k (some v)
            = spPut store k (SecureStorage.setBlob env v) := by
          simp [SecureStorage.set, ht]
        rw [hset]
        exact spGetStr_spPut_ne store k k2 (SecureStorage.setBlob env v) h
  · exact spGetStr_spRemove_ne store k k2 h

/-- Witness for C10 at concrete distinct keys. -/
theorem c10_witness :
    spGetStr (SecureStorage.remove [("b", "1")] "a") "b" = spGetStr [("b", "1")] "b" :=
  (c10_frame ⟨0, [], false⟩ [("b", "1")] "a" "b" none (by decide)).2
